import Mathlib

/-!
A verification development for the TES (Task Execution Service) backend
adapter of the crankshaft engine
(`crankshaft-engine/src/service/runner/backend/tes.rs`).

The adapter has three cores, each embedded below:

* `to_tes_task` — the pure translator from an engine `Task` to a TES
  submission payload;
* `pollLoop` / `run` — the polling state machine, modelled over a finite
  script of query responses; each `get_task` round-trip consumes one script
  entry, and the trace of externally observable events (submission, status
  queries, sleeps) is returned alongside the outcome.  A script that is
  exhausted before a terminal state is observed models the loop still
  running (`none`);
* `collectOutputs` / `aggregateLogs` — the result aggregator that turns the
  terminal view's nested logs into the engine's non-empty `TaskResult`.

Rust panics (`unwrap` / `expect`) are embedded as `Except.error` values of
the `RunError` type, so every fatal condition of the source is an explicit
failure value here.
-/

namespace Crankshaft

/-- A non-empty collection as in the `nonempty` crate: an explicit first
element plus the remaining tail. -/
structure NonEmpty (α : Type) where
  head : α
  tail : List α
deriving DecidableEq, Repr

/-- The underlying ordered list of a `NonEmpty` collection. -/
def NonEmpty.toList {α : Type} (xs : NonEmpty α) : List α :=
  xs.head :: xs.tail

/-- Modelled from the spec: one Execution step of an EngineTask, carrying a
container image reference and an ordered sequence of command arguments. -/
structure Execution where
  image : String
  args : List String
deriving DecidableEq, Repr

/-- Modelled from the spec: an EngineTask — optional name, optional
description, and an ordered, non-empty sequence of Execution steps.  The
accessors `name()`, `description()` and `executions()` of the engine type
are the fields. -/
structure Task where
  name : Option String
  description : Option String
  executions : NonEmpty Execution
deriving DecidableEq, Repr

/-- A TES executor (`tes::v1::types::task::Executor`): image and command
plus the remaining schema fields, which default as in the TES schema. -/
structure Executor where
  image : String
  command : List String
  workdir : Option String := none
  stdin : Option String := none
  stdout : Option String := none
  stderr : Option String := none
  env : List (String × String) := []
deriving DecidableEq, Repr

/-- The TES task state, abstracted to the one capability the adapter
queries: the `is_executing` predicate. -/
structure TesState where
  is_executing : Bool
deriving DecidableEq, Repr

/-- A TES per-executor log entry (`tes::v1::types::task::ExecutorLog`):
an optional exit code and optional captured stdout/stderr text. -/
structure ExecutorLog where
  exit_code : Option Int
  stdout : Option String := none
  stderr : Option String := none
deriving DecidableEq, Repr

/-- A TES per-group task log (`tes::v1::types::task::TaskLog`): an ordered
sequence of executor logs. -/
structure TaskLog where
  logs : List ExecutorLog
deriving DecidableEq, Repr

/-- A TES task (`tes::v1::types::Task`), restricted to the fields the
adapter reads or writes; the remaining fields take schema defaults. -/
structure TesTask where
  name : Option String := none
  description : Option String := none
  executors : List Executor := []
  state : Option TesState := none
  logs : Option (List TaskLog) := none
deriving DecidableEq, Repr

/-- Wrap an integer into the `i32` range, as the Rust cast `as i32` does. -/
def toI32 (n : Int) : Int :=
  (n + 2 ^ 31).emod (2 ^ 32) - 2 ^ 31

/-- A POSIX process exit status (`std::process::ExitStatus` on unix),
holding the raw wait status. -/
structure ExitStatus where
  raw : Int
deriving DecidableEq, Repr

/-- `ExitStatus::from_raw` (unix): wrap a raw wait status. -/
def ExitStatus.from_raw (raw : Int) : ExitStatus :=
  ⟨raw⟩

/-- `ExitStatus::code` (unix): the exit code when the status says the
process exited normally (`WIFEXITED`), i.e. bits 0–6 are zero; the code is
then bits 8–15 (`WEXITSTATUS`). -/
def ExitStatus.code (s : ExitStatus) : Option Int :=
  if s.raw.emod 128 = 0 then some ((s.raw.ediv 256).emod 256) else none

/-- `ExitStatus::success`: the process exited normally with code zero. -/
def ExitStatus.success (s : ExitStatus) : Bool :=
  s.code = some 0

/-- The UTF-8 bytes of a string, as Rust's `str::as_bytes`. -/
def utf8Bytes (s : String) : List UInt8 :=
  s.data.flatMap String.utf8EncodeChar

/-- A captured process outcome (`std::process::Output`): exit status and
raw stdout/stderr byte sequences. -/
structure Output where
  status : ExitStatus
  stdout : List UInt8
  stderr : List UInt8
deriving DecidableEq, Repr

/-- Modelled from the spec: the engine `TaskResult` — an ordered,
non-empty sequence of process-outcome records. -/
structure TaskResult where
  executions : NonEmpty Output
deriving DecidableEq, Repr

/-- The fatal conditions of `run`; each corresponds to one `unwrap` or
`expect` in the source (a Rust panic), embedded as an error value. -/
inductive RunError where
  /-- `create_task(task).await.unwrap()` failed: submission failure. -/
  | submitFailed
  /-- `task.logs.unwrap()` failed: the terminal view carried no log groups. -/
  | missingLogs
  /-- `log.exit_code.expect(..)` failed: an executor log had no exit code. -/
  | missingExitCode
  /-- `results.next().unwrap()` failed: the flattened log sequence was empty. -/
  | emptyResults
deriving DecidableEq, Repr

/-- `to_tes_task`: translate an engine `Task` into a TES task for
submission.  Name and description are copied; each execution becomes one
executor carrying its image and argument list, every other field left at
the schema default. -/
def to_tes_task (task : Task) : TesTask :=
  { name := task.name
    description := task.description
    executors := task.executions.toList.map (fun execution =>
      { image := execution.image
        command := execution.args }) }

/-- The body of the `map` closure in `run`: build one `Output` from an
executor log whose exit code `status` is present.  The status comes from
`ExitStatus::from_raw(status as i32)`; absent stdout/stderr default to the
empty string before taking bytes. -/
def mapLogOutput (log : ExecutorLog) (status : Int) : Output :=
  { status := ExitStatus.from_raw (toI32 status)
    stdout := utf8Bytes (log.stdout.getD "")
    stderr := utf8Bytes (log.stderr.getD "") }

/-- The mapped iterator of `run`, consumed in order: for each flattened
log entry, `exit_code.expect(..)` (absence is fatal) then `mapLogOutput`. -/
def collectOutputs : List ExecutorLog → Except RunError (List Output)
  | [] => .ok []
  | log :: rest =>
    match log.exit_code with
    | none => .error .missingExitCode
    | some status =>
      (collectOutputs rest).map (fun outs => mapLogOutput log status :: outs)

/-- The flattened per-group, per-executor log sequence of a terminal view:
`task.logs.unwrap().into_iter().flat_map(|task| task.logs)`, with `none`
flattening to the empty sequence for the purpose of stating properties. -/
def flattenLogs (logs : Option (List TaskLog)) : List ExecutorLog :=
  (logs.getD []).flatMap TaskLog.logs

/-- The non-empty result construction of `run` on the flattened log
sequence: map each entry to an `Output` via `collectOutputs`, then take the
first element explicitly (`results.next().unwrap()`, emptiness is fatal)
and extend with the rest. -/
def aggregateFlat (flat : List ExecutorLog) : Except RunError TaskResult :=
  match collectOutputs flat with
  | .error e => .error e
  | .ok [] => .error .emptyResults
  | .ok (first :: rest) => .ok { executions := ⟨first, rest⟩ }

/-- The aggregation step of `run` on a terminal view's `logs` field:
`task.logs.unwrap()` (absence is fatal), flatten the groups
(`flat_map(|task| task.logs)`), then build the non-empty result. -/
def aggregateLogs : Option (List TaskLog) → Except RunError TaskResult
  | none => .error .missingLogs
  | some groups => aggregateFlat (groups.flatMap TaskLog.logs)

/-- One scripted response of `client.get_task(&task_id, View::Full)`:
either a transport error or a full task view. -/
inductive PollResponse where
  | err
  | ok (task : TesTask)
deriving DecidableEq, Repr

/-- The externally observable events of one `run`: the submission
round-trip, one status query per `get_task` call, and each
`tokio::time::sleep` with its duration in milliseconds. -/
inductive PollEvent where
  | submit
  | query
  | sleepMs (ms : Nat)
deriving DecidableEq, Repr

/-- Whether an event is a status query. -/
def isQuery : PollEvent → Bool
  | .query => true
  | _ => false

/-- Whether an event is a submission. -/
def isSubmit : PollEvent → Bool
  | .submit => true
  | _ => false

/-- The number of status queries in a trace. -/
def countQueries (events : List PollEvent) : Nat :=
  events.countP isQuery

/-- The polling loop of `run`, over a finite script of responses.  Each
iteration issues one query.  On a transport error (`if let Ok` fails) the
loop re-enters with nothing further; on a view with no state
(`if let Some` fails) likewise; on an executing state it sleeps 200 ms and
re-enters; on a non-executing state it stops with that terminal view.  An
exhausted script means no terminal view was observed (`none`): the real
loop would still be running. -/
def pollLoop : List PollResponse → Option TesTask × List PollEvent
  | [] => (none, [])
  | .err :: rest =>
    let r := pollLoop rest
    (r.1, .query :: r.2)
  | .ok task :: rest =>
    match task.state with
    | none =>
      let r := pollLoop rest
      (r.1, .query :: r.2)
    | some state =>
      if state.is_executing then
        let r := pollLoop rest
        (r.1, .query :: .sleepMs 200 :: r.2)
      else
        (some task, [.query])

/-- `run`: submit (the outcome of `create_task` is the `submission`
argument; its failure panics the run), then poll, then aggregate the
terminal view's logs.  The second component is the event trace; a `none`
first component means the loop never observed a terminal state within the
script. -/
def run (submission : Except RunError String) (script : List PollResponse) :
    Option (Except RunError TaskResult) × List PollEvent :=
  match submission with
  | .error e => (some (.error e), [.submit])
  | .ok _taskId =>
    match pollLoop script with
    | (none, events) => (none, .submit :: events)
    | (some task, events) => (some (aggregateLogs task.logs), .submit :: events)

/-- The `Output` built from a log entry whose exit code is present; used
to state order preservation (`getD 0` is never taken under that
hypothesis). -/
def outputOfLog (log : ExecutorLog) : Output :=
  mapLogOutput log (log.exit_code.getD 0)

/-- The expected event trace of a run whose first `k` queries see an
executing state and whose query `k + 1` sees a terminal one. -/
def expectedTrace : Nat → List PollEvent
  | 0 => [.query]
  | k + 1 => .query :: .sleepMs 200 :: expectedTrace k

/-- A scripted view reporting an executing state. -/
def executingView : TesTask :=
  { state := some { is_executing := true } }

/-- A scripted view reporting no state at all. -/
def statelessView : TesTask :=
  { state := none }

/-- A scripted terminal view carrying one log group with one entry. -/
def terminalView : TesTask :=
  { state := some { is_executing := false }
    logs := some [⟨[⟨some 0, none, none⟩]⟩] }

/-- A sample engine task with two execution steps. -/
def sampleTask : Task :=
  { name := some "n"
    description := some "d"
    executions := ⟨⟨"img", ["a", "b"]⟩, [⟨"img2", ["c"]⟩]⟩ }

/-! ## Helper lemmas about the aggregator -/

theorem collectOutputs_ok_eq {logs : List ExecutorLog} {outs : List Output}
    (h : collectOutputs logs = .ok outs) : outs = logs.map outputOfLog := by
  induction logs generalizing outs with
  | nil =>
    simp only [collectOutputs, Except.ok.injEq] at h
    simp [h.symm]
  | cons log rest ih =>
    cases hc : log.exit_code with
    | none => simp [collectOutputs, hc] at h
    | some status =>
      cases hr : collectOutputs rest with
      | error e => simp [collectOutputs, hc, hr, Except.map] at h
      | ok os =>
        simp only [collectOutputs, hc, hr, Except.map, Except.ok.injEq] at h
        rw [List.map_cons, ← ih hr, ← h]
        simp [outputOfLog, hc]

theorem collectOutputs_all_present {logs : List ExecutorLog}
    (h : ∀ l ∈ logs, l.exit_code ≠ none) :
    collectOutputs logs = .ok (logs.map outputOfLog) := by
  induction logs with
  | nil => rfl
  | cons log rest ih =>
    have hlog := h log (by simp)
    cases hc : log.exit_code with
    | none => exact absurd hc hlog
    | some status =>
      have hrest := ih (fun l hl => h l (by simp [hl]))
      simp [collectOutputs, hc, hrest, Except.map, outputOfLog]

theorem aggregateFlat_of_error {flat : List ExecutorLog} {e : RunError}
    (h : collectOutputs flat = .error e) : aggregateFlat flat = .error e := by
  unfold aggregateFlat
  rw [h]

theorem aggregateFlat_of_nil {flat : List ExecutorLog}
    (h : collectOutputs flat = .ok []) : aggregateFlat flat = .error .emptyResults := by
  unfold aggregateFlat
  rw [h]

theorem aggregateFlat_of_cons {flat : List ExecutorLog} {first : Output}
    {rest : List Output} (h : collectOutputs flat = .ok (first :: rest)) :
    aggregateFlat flat = .ok { executions := ⟨first, rest⟩ } := by
  unfold aggregateFlat
  rw [h]

theorem aggregateFlat_ok_inv {flat : List ExecutorLog} {r : TaskResult}
    (h : aggregateFlat flat = .ok r) :
    ∃ first rest, collectOutputs flat = .ok (first :: rest) ∧
      r = { executions := ⟨first, rest⟩ } := by
  unfold aggregateFlat at h
  cases hc : collectOutputs flat with
  | error e => rw [hc] at h; simp at h
  | ok os =>
    rw [hc] at h
    cases os with
    | nil => simp at h
    | cons first rest =>
      simp only [Except.ok.injEq] at h
      exact ⟨first, rest, rfl, h.symm⟩

theorem collectOutputs_missing {l : ExecutorLog} (hnone : l.exit_code = none) :
    ∀ logs : List ExecutorLog, l ∈ logs → ∀ outs, collectOutputs logs ≠ .ok outs := by
  intro logs
  induction logs with
  | nil => intro hmem; cases hmem
  | cons log rest ih =>
    intro hmem outs h
    rcases List.mem_cons.mp hmem with heq | htail
    · subst heq
      simp [collectOutputs, hnone] at h
    · cases hc : log.exit_code with
      | none => simp [collectOutputs, hc] at h
      | some status =>
        cases hr : collectOutputs rest with
        | error e => simp [collectOutputs, hc, hr, Except.map] at h
        | ok os => exact ih htail os hr

/-! ## Claims about the translator -/

/-- Claim C9: the translator `to_tes_task` is a pure, total function (it is
defined for every `Task` with no failure path) and copies the optional name
and description fields verbatim: present values are carried over unchanged
and absent ones stay absent. -/
theorem tes_C9 (task : Task) :
    (to_tes_task task).name = task.name ∧
    (to_tes_task task).description = task.description :=
  ⟨rfl, rfl⟩

/-- Claim C2: for a task with N execution steps, `to_tes_task` emits exactly
N executors in the same order; the i-th executor carries the i-th
execution's image and argument list, and every other executor field is the
schema default. -/
theorem tes_C2 (task : Task) (i : Nat)
    (h1 : i < (to_tes_task task).executors.length)
    (h2 : i < task.executions.toList.length) :
    (to_tes_task task).executors.length = task.executions.toList.length ∧
    (to_tes_task task).executors.get ⟨i, h1⟩ =
      { image := (task.executions.toList.get ⟨i, h2⟩).image
        command := (task.executions.toList.get ⟨i, h2⟩).args } := by
  constructor
  · simp [to_tes_task]
  · simp [to_tes_task, List.get_eq_getElem]

/-- Witness for C2 at a concrete two-step task and index 0. -/
theorem tes_C2_witness :
    (to_tes_task sampleTask).executors.length = sampleTask.executions.toList.length ∧
    (to_tes_task sampleTask).executors.get ⟨0, by decide⟩ =
      { image := (sampleTask.executions.toList.get ⟨0, by decide⟩).image
        command := (sampleTask.executions.toList.get ⟨0, by decide⟩).args } :=
  tes_C2 sampleTask 0 (by decide) (by decide)

/-! ## Claims about the aggregator -/

/-- Counterexample to claim C1 as stated: a terminal view with exactly one
flattened log entry whose exit code is absent makes the aggregation step
fail instead of producing a one-element `TaskResult`. -/
theorem tes_C1_counterexample :
    (flattenLogs (some [⟨[⟨none, none, none⟩]⟩])).length = 1 ∧
    aggregateLogs (some [⟨[⟨none, none, none⟩]⟩]) = .error .missingExitCode :=
  ⟨rfl, rfl⟩

/-- Claim C1 (amended): for every terminal view whose flattened per-group,
per-executor log sequence has at least one entry and in which every
flattened entry's exit code is present, the aggregation step produces a
`TaskResult` whose length equals the flattened entry count and whose
records appear in exactly the flattened order (group order outer, executor
order inner). -/
theorem tes_C1 (logs : Option (List TaskLog))
    (hne : flattenLogs logs ≠ [])
    (hcodes : ∀ l ∈ flattenLogs logs, l.exit_code ≠ none) :
    ∃ r, aggregateLogs logs = .ok r ∧
      r.executions.toList = (flattenLogs logs).map outputOfLog ∧
      r.executions.toList.length = (flattenLogs logs).length := by
  cases logs with
  | none => exact absurd rfl hne
  | some groups =>
    have hcoll : collectOutputs (groups.flatMap TaskLog.logs) =
        .ok ((groups.flatMap TaskLog.logs).map outputOfLog) :=
      collectOutputs_all_present (by simpa [flattenLogs] using hcodes)
    cases hfl : groups.flatMap TaskLog.logs with
    | nil => exact absurd (by simpa [flattenLogs] using hfl) hne
    | cons first rest =>
      rw [hfl, List.map_cons] at hcoll
      refine ⟨{ executions := ⟨outputOfLog first, rest.map outputOfLog⟩ }, ?_, ?_, ?_⟩
      · show aggregateFlat (groups.flatMap TaskLog.logs) = _
        rw [hfl, aggregateFlat_of_cons hcoll]
      · simp [NonEmpty.toList, flattenLogs, hfl]
      · simp [NonEmpty.toList, flattenLogs, hfl]

/-- Witness for C1 (amended) at a one-entry terminal view. -/
theorem tes_C1_witness :
    ∃ r, aggregateLogs (some [⟨[⟨some 0, some "out", none⟩]⟩]) = .ok r ∧
      r.executions.toList =
        (flattenLogs (some [⟨[⟨some 0, some "out", none⟩]⟩])).map outputOfLog ∧
      r.executions.toList.length =
        (flattenLogs (some [⟨[⟨some 0, some "out", none⟩]⟩])).length :=
  tes_C1 (some [⟨[⟨some 0, some "out", none⟩]⟩]) (by decide) (by decide)

/-- Claim C5: a terminal view whose flattened executor-log sequence is
empty makes the aggregation step fail — no `TaskResult` is produced — and
more generally aggregation is all-or-nothing: any `TaskResult` it does
return covers the whole flattened sequence in order and is non-empty. -/
theorem tes_C5 (logs : Option (List TaskLog)) :
    (flattenLogs logs = [] → ∀ r, aggregateLogs logs ≠ .ok r) ∧
    (∀ r, aggregateLogs logs = .ok r →
      r.executions.toList = (flattenLogs logs).map outputOfLog ∧
      r.executions.toList ≠ []) := by
  cases logs with
  | none =>
    constructor
    · intro _ r h
      simp [aggregateLogs] at h
    · intro r h
      simp [aggregateLogs] at h
  | some groups =>
    constructor
    · intro hempty r h
      have hfl : groups.flatMap TaskLog.logs = [] := by
        simpa [flattenLogs] using hempty
      have : aggregateLogs (some groups) = .error .emptyResults := by
        show aggregateFlat (groups.flatMap TaskLog.logs) = _
        rw [hfl]
        exact aggregateFlat_of_nil rfl
      rw [this] at h
      simp at h
    · intro r h
      obtain ⟨first, rest, hc, hr⟩ := aggregateFlat_ok_inv h
      have hos := collectOutputs_ok_eq hc
      subst hr
      constructor
      · simpa [NonEmpty.toList, flattenLogs] using hos
      · simp [NonEmpty.toList]

/-- Witness for C5: at a terminal view with an empty log-group list the
aggregation step refuses to return any `TaskResult`. -/
theorem tes_C5_witness :
    aggregateLogs (some []) ≠
      .ok { executions := ⟨{ status := ⟨0⟩, stdout := [], stderr := [] }, []⟩ } :=
  (tes_C5 (some [])).1 rfl
    { executions := ⟨{ status := ⟨0⟩, stdout := [], stderr := [] }, []⟩ }

/-- Claim C6: during aggregation, a flattened entry with an absent exit
code makes the whole run fail (no `TaskResult` is produced), and when every
flattened entry's exit code is present, each is mapped to a process-outcome
record built from its code. -/
theorem tes_C6 (logs : Option (List TaskLog)) :
    ((∃ l ∈ flattenLogs logs, l.exit_code = none) → ∀ r, aggregateLogs logs ≠ .ok r) ∧
    ((∀ l ∈ flattenLogs logs, l.exit_code ≠ none) →
      collectOutputs (flattenLogs logs) = .ok ((flattenLogs logs).map outputOfLog)) := by
  constructor
  · rintro ⟨l, hmem, hnone⟩ r h
    cases logs with
    | none => simp [flattenLogs] at hmem
    | some groups =>
      have hmem2 : l ∈ groups.flatMap TaskLog.logs := by
        simpa [flattenLogs] using hmem
      obtain ⟨first, rest, hc, _⟩ := aggregateFlat_ok_inv h
      exact collectOutputs_missing hnone _ hmem2 (first :: rest) hc
  · intro hcodes
    exact collectOutputs_all_present hcodes

/-- Witness for C6: a two-entry view whose second entry lacks its exit code
yields no `TaskResult`. -/
theorem tes_C6_witness :
    aggregateLogs (some [⟨[⟨some 0, none, none⟩, ⟨none, none, none⟩]⟩]) ≠
      .ok { executions := ⟨{ status := ⟨0⟩, stdout := [], stderr := [] }, []⟩ } :=
  (tes_C6 (some [⟨[⟨some 0, none, none⟩, ⟨none, none, none⟩]⟩])).1
    ⟨⟨none, none, none⟩, by decide, rfl⟩
    { executions := ⟨{ status := ⟨0⟩, stdout := [], stderr := [] }, []⟩ }

/-- Claim C7: a log entry with exit code 0 and absent stdout/stderr maps to
an outcome with a success exit status and empty stdout/stderr byte
sequences; a log entry with exit code 137 maps to an outcome whose exit
status holds raw value 137, i.e. the code taken verbatim as a POSIX wait
status (`ExitStatus::from_raw`). -/
theorem tes_C7 (log : ExecutorLog) :
    (log.exit_code = some 0 → log.stdout = none → log.stderr = none →
      ∃ out, collectOutputs [log] = .ok [out] ∧
        out.status.success = true ∧ out.stdout = [] ∧ out.stderr = []) ∧
    (log.exit_code = some 137 →
      ∃ out, collectOutputs [log] = .ok [out] ∧
        out.status = ExitStatus.from_raw 137 ∧ out.status.raw = 137) := by
  constructor
  · intro hc hso hse
    refine ⟨mapLogOutput log 0, ?_, ?_, ?_, ?_⟩
    · simp [collectOutputs, hc, Except.map]
    · show (ExitStatus.from_raw (toI32 0)).success = true
      decide
    · show utf8Bytes (log.stdout.getD "") = []
      rw [hso]
      decide
    · show utf8Bytes (log.stderr.getD "") = []
      rw [hse]
      decide
  · intro hc
    refine ⟨mapLogOutput log 137, ?_, ?_, ?_⟩
    · simp [collectOutputs, hc, Except.map]
    · show ExitStatus.from_raw (toI32 137) = ExitStatus.from_raw 137
      decide
    · show (ExitStatus.from_raw (toI32 137)).raw = 137
      decide

/-- Witness for C7 at concrete logs with codes 0 and 137. -/
theorem tes_C7_witness :
    (∃ out, collectOutputs [⟨some 0, none, none⟩] = .ok [out] ∧
      out.status.success = true ∧ out.stdout = [] ∧ out.stderr = []) ∧
    (∃ out, collectOutputs [⟨some 137, none, none⟩] = .ok [out] ∧
      out.status = ExitStatus.from_raw 137 ∧ out.status.raw = 137) :=
  ⟨(tes_C7 ⟨some 0, none, none⟩).1 rfl rfl rfl,
   (tes_C7 ⟨some 137, none, none⟩).2 rfl⟩

/-! ## Claims about the polling state machine -/

theorem countQueries_expectedTrace (k : Nat) :
    countQueries (expectedTrace k) = k + 1 := by
  induction k with
  | zero => rfl
  | succ k ih =>
    simp [expectedTrace, countQueries, List.countP_cons, isQuery] at ih ⊢
    omega

theorem pollLoop_exec_script (views : List TesTask) (task : TesTask)
    (state : TesState)
    (hviews : ∀ v ∈ views, ∃ s, v.state = some s ∧ s.is_executing = true)
    (hstate : task.state = some state) (hterm : state.is_executing = false) :
    pollLoop (views.map PollResponse.ok ++ [PollResponse.ok task]) =
      (some task, expectedTrace views.length) := by
  induction views with
  | nil =>
    simp [pollLoop, hstate, hterm, expectedTrace]
  | cons v vs ih =>
    obtain ⟨s, hvs, hexec⟩ := hviews v (by simp)
    have ih2 := ih (fun u hu => hviews u (by simp [hu]))
    simp [pollLoop, hvs, hexec, ih2, expectedTrace]

/-- Claim C3: if the first `k` status queries all report an executing state
and query `k + 1` reports a terminal one, the polling loop performs exactly
`k + 1` queries, sleeps 200 ms between each executing response and the next
query (and nowhere else), and `run` returns the result aggregated from that
terminal view. -/
theorem tes_C3 (views : List TesTask) (task : TesTask) (state : TesState)
    (hviews : ∀ v ∈ views, ∃ s, v.state = some s ∧ s.is_executing = true)
    (hstate : task.state = some state) (hterm : state.is_executing = false) :
    pollLoop (views.map PollResponse.ok ++ [PollResponse.ok task]) =
      (some task, expectedTrace views.length) ∧
    countQueries (expectedTrace views.length) = views.length + 1 ∧
    run (.ok "id") (views.map PollResponse.ok ++ [PollResponse.ok task]) =
      (some (aggregateLogs task.logs), .submit :: expectedTrace views.length) := by
  have hp := pollLoop_exec_script views task state hviews hstate hterm
  refine ⟨hp, countQueries_expectedTrace _, ?_⟩
  simp [run, hp]

/-- Witness for C3 with one executing response followed by a terminal one. -/
theorem tes_C3_witness :
    pollLoop ([executingView].map PollResponse.ok ++ [PollResponse.ok terminalView]) =
      (some terminalView, expectedTrace 1) ∧
    countQueries (expectedTrace 1) = 1 + 1 ∧
    run (.ok "id") ([executingView].map PollResponse.ok ++ [PollResponse.ok terminalView]) =
      (some (aggregateLogs terminalView.logs), .submit :: expectedTrace 1) :=
  tes_C3 [executingView] terminalView ⟨false⟩
    (fun v hv => by
      rw [List.mem_singleton.mp hv]
      exact ⟨⟨true⟩, rfl, rfl⟩)
    rfl rfl

/-- Counterexample to claim C4 as stated: after a failed status query the
loop issues the next query immediately — the trace of a failed query
followed by a terminal response contains two back-to-back queries and no
200 ms sleep. -/
theorem tes_C4_counterexample :
    pollLoop [PollResponse.err, PollResponse.ok terminalView] =
      (some terminalView, [PollEvent.query, PollEvent.query]) ∧
    PollEvent.sleepMs 200 ∉ [PollEvent.query, PollEvent.query] := by
  exact ⟨rfl, by decide⟩

/-- Claim C4 (amended): when a status query fails with a transport error,
the loop treats the outcome as inconclusive and re-enters polling
immediately, with no inter-poll delay, without performing a terminal check
on that iteration: the iteration contributes exactly one query event and
leaves the outcome to the remaining script. -/
theorem tes_C4 (rest : List PollResponse) :
    pollLoop (PollResponse.err :: rest) =
      ((pollLoop rest).1, PollEvent.query :: (pollLoop rest).2) :=
  rfl

/-- Claim C8: when submission (`create_task`) fails, the run fails with
that failure, the trace holds exactly one submission attempt (no
resubmission) and no status query is ever issued. -/
theorem tes_C8 (e : RunError) (script : List PollResponse) :
    run (.error e) script = (some (.error e), [PollEvent.submit]) ∧
    countQueries (run (.error e) script).2 = 0 ∧
    (run (.error e) script).2.countP isSubmit = 1 :=
  ⟨rfl, rfl, rfl⟩

/-- Claim C10: when a status query succeeds but the view carries no state,
the loop neither performs a terminal check nor sleeps — the iteration adds
exactly one query event — so a service that keeps omitting the state
induces a delay-free busy loop: a script of `n` state-less views yields `n`
back-to-back queries and no terminal view. -/
theorem tes_C10 (task : TesTask) (rest : List PollResponse) (n : Nat)
    (h : task.state = none) :
    pollLoop (PollResponse.ok task :: rest) =
      ((pollLoop rest).1, PollEvent.query :: (pollLoop rest).2) ∧
    pollLoop (List.replicate n (PollResponse.ok statelessView)) =
      (none, List.replicate n PollEvent.query) := by
  constructor
  · simp [pollLoop, h]
  · have hstep : ∀ r, pollLoop (PollResponse.ok statelessView :: r) =
        ((pollLoop r).1, PollEvent.query :: (pollLoop r).2) := fun r => rfl
    induction n with
    | zero => rfl
    | succ n ih =>
      rw [List.replicate_succ, hstep, ih, List.replicate_succ]

/-- Witness for C10 at a state-less view and a two-entry script. -/
theorem tes_C10_witness :
    pollLoop [PollResponse.ok statelessView] =
      ((pollLoop []).1, PollEvent.query :: (pollLoop []).2) ∧
    pollLoop (List.replicate 2 (PollResponse.ok statelessView)) =
      (none, List.replicate 2 PollEvent.query) :=
  tes_C10 statelessView [] 2 rfl

end Crankshaft
